import Mathlib

/-!
Verification of a length-prefixed TCP transfer protocol (client/server pair).

The program sends messages as `[4-byte big-endian length][payload]`, with an
exact-receive loop over a TCP socket, a 100 MB ceiling on declared lengths,
a file sub-protocol `[name envelope][8-byte big-endian size][raw content]`,
and a handshake in which the listener parses a `port+machine+ip` identity
string.

Bytes are modelled as natural numbers; the receiving side of a socket is a
list of fragments (each `recv` call returns a prefix of the first fragment),
so that quantifying over fragment lists quantifies over all ways TCP may
split the data.  A zero-length fragment, or an exhausted fragment list,
models the peer closing the connection.
-/

/-- Receiving side of a socket: the bytes still to arrive, as the list of
chunks successive `recv` calls will deliver. -/
structure InStream where
  frags : List (List Nat)
deriving DecidableEq

/-- All bytes remaining on the stream, in order. -/
def InStream.flatten (s : InStream) : List Nat :=
  s.frags.flatten

/-- Model of `sock.recv n`: returns at most `n` bytes from the head fragment; an empty
result models the peer having closed the connection. -/
def InStream.recv (s : InStream) (n : Nat) : List Nat × InStream :=
  match s.frags with
  | [] => ([], ⟨[]⟩)
  | f :: rest =>
    if f.length ≤ n then (f, ⟨rest⟩)
    else (f.take n, ⟨f.drop n :: rest⟩)

/-- Errors raised inside the receive path: `ConnectionError("Connection
closed unexpectedly")` from `recv_exact`, and the `ValueError("Message too
large")` from the 100 MB ceiling check in `recv_message`. -/
inductive NetError where
  | connectionClosed
  | messageTooLarge
deriving DecidableEq

/-- The function `recv_exact(sock, n_bytes)` from the source: loop calling `sock.recv`
until `n` bytes have accumulated, raising `ConnectionError` on an empty
read.  The final stream state is returned alongside the result. -/
def recv_exact (s : InStream) (n : Nat) : Except NetError (List Nat) × InStream :=
  if h : n = 0 then (Except.ok [], s)
  else
    let p := s.recv n
    if hc : p.1 = [] then (Except.error NetError.connectionClosed, p.2)
    else
      let q := recv_exact p.2 (n - p.1.length)
      (q.1.map (fun rest => p.1 ++ rest), q.2)
termination_by n
decreasing_by
  exact Nat.sub_lt (Nat.pos_of_ne_zero h) (List.length_pos.mpr hc)

/-- Encoding `struct.pack("!I", n)`: 4-byte big-endian. -/
def pack_u32 (n : Nat) : List Nat :=
  [n / 2 ^ 24 % 256, n / 2 ^ 16 % 256, n / 2 ^ 8 % 256, n % 256]

/-- Encoding `struct.pack("!Q", n)`: 8-byte big-endian. -/
def pack_u64 (n : Nat) : List Nat :=
  [n / 2 ^ 56 % 256, n / 2 ^ 48 % 256, n / 2 ^ 40 % 256, n / 2 ^ 32 % 256,
   n / 2 ^ 24 % 256, n / 2 ^ 16 % 256, n / 2 ^ 8 % 256, n % 256]

/-- Decoding `struct.unpack("!I", b)[0]` / `struct.unpack("!Q", b)[0]`:
big-endian value of a byte string. -/
def unpack_be (l : List Nat) : Nat :=
  l.foldl (fun a b => a * 256 + b) 0

/-- Body of the `try` block of `recv_message(sock)`: read the 4-byte header,
decode it big-endian, reject lengths above the 100 MB ceiling, then read
exactly that many payload bytes. -/
def recv_message_try (s : InStream) : Except NetError (List Nat) × InStream :=
  match recv_exact s 4 with
  | (Except.error e, s1) => (Except.error e, s1)
  | (Except.ok length_header, s1) =>
    let message_length := unpack_be length_header
    if message_length > 1024 * 1024 * 100 then
      (Except.error NetError.messageTooLarge, s1)
    else recv_exact s1 message_length

/-- The function `recv_message(sock)`: the `try` body with its `except` handler, which
converts every internal failure into the sentinel `None`. -/
def recv_message (s : InStream) : Option (List Nat) × InStream :=
  match recv_message_try s with
  | (Except.ok d, s1) => (some d, s1)
  | (Except.error _, s1) => (none, s1)

/-- Sending side of a socket: the bytes written so far, plus a flag modelling
a transport that makes `sendall` raise. -/
structure OutSock where
  wire : List Nat
  broken : Bool
deriving DecidableEq

/-- Errors raised inside the send path: `UnicodeEncodeError` from encoding
a `str` holding a lone surrogate, `struct.error` from packing a length
that does not fit 4 bytes, and an `OSError` from `sendall`. -/
inductive SendError where
  | encodeError
  | structError
  | socketError
deriving DecidableEq

/-- Model of `sock.sendall(data)`: appends to the wire, or raises on a broken
transport. -/
def sendall (o : OutSock) (data : List Nat) : Except SendError OutSock :=
  if o.broken then Except.error SendError.socketError
  else Except.ok { o with wire := o.wire ++ data }

/-- A Python value passed to `send_message`: either a `str` (a list of
Unicode code points) or a `bytes` object. -/
inductive PyData where
  | str (cps : List Nat)
  | bytes (bs : List Nat)
deriving DecidableEq

/-- UTF-8 encoding of one Unicode code point; `none` models the
`UnicodeEncodeError` CPython raises for a lone surrogate (a `str` can hold
code points U+D800 to U+DFFF but `encode("utf-8")` rejects them), and for
values above U+10FFFF, which a `str` cannot hold at all. -/
def utf8EncodeChar (c : Nat) : Option (List Nat) :=
  if c < 0x80 then some [c]
  else if c < 0x800 then some [0xC0 + c / 64, 0x80 + c % 64]
  else if 0xD800 ≤ c ∧ c < 0xE000 then none
  else if c < 0x10000 then
    some [0xE0 + c / 4096, 0x80 + c / 64 % 64, 0x80 + c % 64]
  else if c < 0x110000 then
    some [0xF0 + c / 262144, 0x80 + c / 4096 % 64, 0x80 + c / 64 % 64, 0x80 + c % 64]
  else none

/-- Encoding `s.encode("utf-8")` on a list of code points; `none` models
the raised `UnicodeEncodeError`. -/
def utf8Encode : List Nat → Option (List Nat)
  | [] => some []
  | c :: cs =>
    match utf8EncodeChar c, utf8Encode cs with
    | some b, some bs => some (b ++ bs)
    | _, _ => none

/-- The `isinstance(message, str)` branch at the top of `send_message`:
a `str` is UTF-8 encoded (which can raise), `bytes` pass through
unchanged. -/
def encodePayload : PyData → Option (List Nat)
  | PyData.str s => utf8Encode s
  | PyData.bytes b => some b

/-- Body of the `try` block of `send_message(sock, message)`: encode `str`
input (`UnicodeEncodeError` on a lone surrogate), pack the length into a
4-byte header (`struct.error` if it does not fit), send the header, then
send the payload. -/
def send_message_try (o : OutSock) (m : PyData) : Except SendError OutSock :=
  match encodePayload m with
  | none => Except.error SendError.encodeError
  | some message_bytes =>
    if message_bytes.length < 2 ^ 32 then
      match sendall o (pack_u32 message_bytes.length) with
      | Except.error e => Except.error e
      | Except.ok o1 => sendall o1 message_bytes
    else Except.error SendError.structError

/-- The function `send_message(sock, message)`: the `try` body with its `except` handler,
which converts every internal failure into the sentinel `False`. -/
def send_message (o : OutSock) (m : PyData) : Bool × OutSock :=
  match send_message_try o m with
  | Except.ok o1 => (true, o1)
  | Except.error _ => (false, o)

/-- Decoding `b.decode("utf-8")` (strict): bytes to Unicode code points, rejecting
invalid start bytes, bad continuation bytes, overlong forms, surrogates and
values above U+10FFFF.  `none` models the raised `UnicodeDecodeError`. -/
def utf8Decode : List Nat → Option (List Nat)
  | [] => some []
  | b :: bs =>
    if b < 0x80 then (utf8Decode bs).map (fun cs => b :: cs)
    else if b < 0xC2 then none
    else if b < 0xE0 then
      match bs with
      | b1 :: bs1 =>
        if 0x80 ≤ b1 ∧ b1 < 0xC0 then
          (utf8Decode bs1).map (fun cs => ((b - 0xC0) * 64 + (b1 - 0x80)) :: cs)
        else none
      | [] => none
    else if b < 0xF0 then
      match bs with
      | b1 :: b2 :: bs1 =>
        let c := (b - 0xE0) * 4096 + (b1 - 0x80) * 64 + (b2 - 0x80)
        if (0x80 ≤ b1 ∧ b1 < 0xC0) ∧ (0x80 ≤ b2 ∧ b2 < 0xC0) ∧
            0x800 ≤ c ∧ ¬(0xD800 ≤ c ∧ c < 0xE000) then
          (utf8Decode bs1).map (fun cs => c :: cs)
        else none
      | _ => none
    else if b < 0xF5 then
      match bs with
      | b1 :: b2 :: b3 :: bs1 =>
        let c := (b - 0xF0) * 262144 + (b1 - 0x80) * 4096 +
          (b2 - 0x80) * 64 + (b3 - 0x80)
        if (0x80 ≤ b1 ∧ b1 < 0xC0) ∧ (0x80 ≤ b2 ∧ b2 < 0xC0) ∧
            (0x80 ≤ b3 ∧ b3 < 0xC0) ∧ 0x10000 ≤ c ∧ c < 0x110000 then
          (utf8Decode bs1).map (fun cs => c :: cs)
        else none
      | _ => none
    else none

/-- The test `save_path.endswith("/") or save_path.endswith("\\")` from
`recv_file` (code points: `/` = 47, `\` = 92). -/
def endsWithSep (p : List Nat) : Bool :=
  p.getLast? == some 47 || p.getLast? == some 92

/-- POSIX `os.path.join(a, b)`: `b` if `b` is absolute, otherwise `a`
followed by `b`, inserting a `/` unless `a` is empty or already ends in
one. -/
def pathJoin (a b : List Nat) : List Nat :=
  if b.head? = some 47 then b
  else if a = [] ∨ a.getLast? = some 47 then a ++ b
  else a ++ 47 :: b

/-- The "Prepare save path" step of `recv_file`: join when the supplied
path ends in a separator, use it verbatim otherwise. -/
def full_save_path (save_path filename : List Nat) : List Nat :=
  if endsWithSep save_path then pathJoin save_path filename else save_path

/-- The content-receiving loop of `recv_file`: read 64 KiB chunks (clipped
to the bytes remaining) via `recv_exact` until `file_size` bytes have
arrived, concatenating the chunks that were written to the file.
`bytes_received` grows by `len(chunk)`, which always equals the requested
`current_chunk_size` (theorem `recv_exact_ok_length` below). -/
def recv_file_loop (s : InStream) (remaining : Nat) :
    Except NetError (List Nat) × InStream :=
  if h : remaining = 0 then (Except.ok [], s)
  else
    let current_chunk_size := min 65536 remaining
    let p := recv_exact s current_chunk_size
    match p.1 with
    | Except.error e => (Except.error e, p.2)
    | Except.ok chunk =>
      let q := recv_file_loop p.2 (remaining - current_chunk_size)
      (q.1.map (fun rest => chunk ++ rest), q.2)
termination_by remaining
decreasing_by
  have h1 : 0 < min 65536 remaining :=
    lt_min (by omega) (Nat.pos_of_ne_zero h)
  omega

/-- The function `recv_file(sock, save_path)`: name envelope, 8-byte size, then content.
Returns the success flag, the stream state, and on success the path and
content written to the local file (the partially-written file left behind
by a mid-transfer failure is not modelled). -/
def recv_file (s : InStream) (save_path : List Nat) :
    Bool × InStream × Option (List Nat × List Nat) :=
  match recv_message s with
  | (none, s1) => (false, s1, none)
  | (some filename_data, s1) =>
    if filename_data = [] then (false, s1, none)
    else
      match utf8Decode filename_data with
      | none => (false, s1, none)
      | some filename =>
        match recv_exact s1 8 with
        | (Except.error _, s2) => (false, s2, none)
        | (Except.ok file_size_data, s2) =>
          let file_size := unpack_be file_size_data
          let fsp := full_save_path save_path filename
          match recv_file_loop s2 file_size with
          | (Except.error _, s3) => (false, s3, none)
          | (Except.ok content, s3) => (true, s3, some (fsp, content))

/-- Python `str.split("+")` on a list of code points (`+` = 43): split at
every separator, keeping empty fields. -/
def splitPlus : List Nat → List (List Nat)
  | [] => [[]]
  | c :: rest =>
    if c = 43 then [] :: splitPlus rest
    else
      match splitPlus rest with
      | [] => [[c]]
      | p :: ps => (c :: p) :: ps

/-- Code points of `"This is a large test message! "`. -/
def baseMsg : List Nat :=
  [84, 104, 105, 115, 32, 105, 115, 32, 97, 32, 108, 97, 114, 103, 101, 32,
   116, 101, 115, 116, 32, 109, 101, 115, 115, 97, 103, 101, 33, 32]

/-- The bulk payload `"This is a large test message! " * 1000`, about 30 KB,
which the listener sends after a successful handshake. -/
def largeMessage : List Nat :=
  (List.replicate 1000 baseMsg).flatten

/-- Code points of `"ERROR:"`. -/
def errorTag : List Nat :=
  [69, 82, 82, 79, 82, 58]

/-- Code points of `"ERROR: Invalid format"`. -/
def errInvalidFormat : List Nat :=
  errorTag ++ [32, 73, 110, 118, 97, 108, 105, 100, 32, 102, 111, 114,
    109, 97, 116]

/-- Code points of `"ERROR: Missing separator"`. -/
def errMissingSeparator : List Nat :=
  errorTag ++ [32, 77, 105, 115, 115, 105, 110, 103, 32, 115, 101, 112,
    97, 114, 97, 116, 111, 114]

/-- How the listener handles the decoded identity string (server `main`):
`if "+" in client_response` then split on `"+"`; exactly three fields mean
success (the large test payload is sent next); any other shape sends an
error envelope instead.  Result: the payloads passed to `send_message`
after the identity message, and whether the session aborted.  The optional
file send on the success path is omitted: it depends on the external
filesystem and is absent in the scenario the claims describe. -/
def listener_handle_identity (client_response : List Nat) : List (List Nat) × Bool :=
  if 43 ∈ client_response then
    if (splitPlus client_response).length = 3 then ([largeMessage], false)
    else ([errInvalidFormat], true)
  else ([errMissingSeparator], true)

/-- Modelled from the spec: the destination rule as §4.3 states it — "if
the caller-supplied destination denotes a directory, join it with the
received file name; otherwise use it verbatim" — for a filesystem in which
`denotesDir` says which paths are directories. -/
def spec_full_save_path (denotesDir : List Nat → Bool) (save_path filename : List Nat) :
    List Nat :=
  if denotesDir save_path then pathJoin save_path filename else save_path

theorem recv_len_le (s : InStream) (n : Nat) : ((s.recv n).1).length ≤ n := by
  rcases s with ⟨frags⟩
  cases frags with
  | nil => simp [InStream.recv]
  | cons f rest =>
    by_cases h : f.length ≤ n
    · simp [InStream.recv, h]
    · simp [InStream.recv, h]

theorem recv_exact_zero (s : InStream) : recv_exact s 0 = (Except.ok [], s) := by
  rw [recv_exact]
  simp

theorem recv_exact_ok_length :
    ∀ (n : Nat) (s : InStream) (d : List Nat) (s1 : InStream),
      recv_exact s n = (Except.ok d, s1) → d.length = n := by
  intro n
  induction n using Nat.strong_induction_on with
  | _ n ih =>
    intro s d s1 h
    rw [recv_exact] at h
    by_cases h0 : n = 0
    · rw [dif_pos h0] at h
      obtain ⟨h1, h2⟩ := Prod.mk.injEq .. ▸ h
      cases h1
      simpa using h0.symm
    · rw [dif_neg h0] at h
      by_cases hc : (s.recv n).1 = []
      · rw [dif_pos hc] at h
        simp at h
      · rw [dif_neg hc] at h
        simp only at h
        obtain ⟨h1, h2⟩ := Prod.mk.injEq .. ▸ h
        cases hq : (recv_exact (s.recv n).2 (n - ((s.recv n).1).length)).1 with
        | error e => rw [hq] at h1; simp [Except.map] at h1
        | ok r =>
          rw [hq] at h1
          simp [Except.map] at h1
          have hr : r.length = n - ((s.recv n).1).length := by
            have hlt : n - ((s.recv n).1).length < n :=
              Nat.sub_lt (Nat.pos_of_ne_zero h0) (List.length_pos.mpr hc)
            exact ih _ hlt _ _ _
              (Prod.ext hq (rfl))
          have hle := recv_len_le s n
          have hpos := List.length_pos.mpr hc
          rw [← h1]
          simp [hr]
          omega

theorem recv_exact_ok :
    ∀ (n : Nat) (s : InStream), (∀ f ∈ s.frags, f ≠ []) → n ≤ s.flatten.length →
      ∃ s1, recv_exact s n = (Except.ok (s.flatten.take n), s1) ∧
        s1.flatten = s.flatten.drop n ∧ ∀ f ∈ s1.frags, f ≠ [] := by
  intro n
  induction n using Nat.strong_induction_on with
  | _ n ih =>
    intro s hne hn
    by_cases h0 : n = 0
    · subst h0
      exact ⟨s, recv_exact_zero s, by simp, hne⟩
    · rcases s with ⟨frags⟩
      cases frags with
      | nil =>
        simp [InStream.flatten] at hn
        omega
      | cons f rest =>
        have hf : f ≠ [] := hne f (List.mem_cons_self f rest)
        have hfpos : 0 < f.length := List.length_pos.mpr hf
        have hflat : InStream.flatten ⟨f :: rest⟩ = f ++ InStream.flatten ⟨rest⟩ := by
          simp [InStream.flatten]
        by_cases hle : f.length ≤ n
        · -- the whole head fragment is consumed
          have hrec : InStream.recv ⟨f :: rest⟩ n = (f, ⟨rest⟩) := by
            simp [InStream.recv, hle]
          have hlt : n - f.length < n := Nat.sub_lt (Nat.pos_of_ne_zero h0) hfpos
          have hn2 : n - f.length ≤ (InStream.flatten ⟨rest⟩).length := by
            rw [hflat] at hn
            simp at hn
            omega
          obtain ⟨s1, he, hfl1, hne1⟩ := ih (n - f.length) hlt ⟨rest⟩
            (fun g hg => hne g (List.mem_cons_of_mem f hg)) hn2
          refine ⟨s1, ?_, ?_, hne1⟩
          · rw [recv_exact, dif_neg h0]
            simp only [hrec, dif_neg hf, he, Except.map]
            rw [hflat, List.take_append_eq_append_take,
              List.take_of_length_le hle]
          · rw [hfl1, hflat, List.drop_append_eq_append_drop,
              List.drop_eq_nil_of_le hle]
            simp
        · -- only a prefix of the head fragment is consumed
          push_neg at hle
          have hrec : InStream.recv ⟨f :: rest⟩ n = (f.take n, ⟨f.drop n :: rest⟩) := by
            simp [InStream.recv, Nat.not_le.mpr hle]
          have htne : f.take n ≠ [] := by
            simp [List.take_eq_nil_iff]
            exact ⟨h0, hf⟩
          have htlen : (f.take n).length = n := by
            simp [List.length_take]
            omega
          refine ⟨⟨f.drop n :: rest⟩, ?_, ?_, ?_⟩
          · rw [recv_exact, dif_neg h0]
            simp only [hrec, dif_neg htne, htlen, Nat.sub_self, recv_exact_zero,
              Except.map]
            rw [hflat, List.take_append_of_le_length (Nat.le_of_lt hle)]
            simp
          · rw [hflat, List.drop_append_of_le_length (Nat.le_of_lt hle)]
            simp [InStream.flatten]
          · intro g hg
            simp at hg
            rcases hg with hg | hg
            · subst hg
              simp [List.drop_eq_nil_iff]
              omega
            · exact hne g (List.mem_cons_of_mem f hg)

theorem recv_exact_short :
    ∀ (n : Nat) (s : InStream), s.flatten.length < n →
      (recv_exact s n).1 = Except.error NetError.connectionClosed := by
  intro n
  induction n using Nat.strong_induction_on with
  | _ n ih =>
    intro s hn
    have h0 : n ≠ 0 := by omega
    rcases s with ⟨frags⟩
    cases frags with
    | nil =>
      rw [recv_exact, dif_neg h0]
      simp [InStream.recv]
    | cons f rest =>
      by_cases hf : f = []
      · subst hf
        rw [recv_exact, dif_neg h0]
        have hrec : InStream.recv ⟨[] :: rest⟩ n = ([], ⟨rest⟩) := by
          simp [InStream.recv]
        simp [hrec]
      · have hflat : InStream.flatten ⟨f :: rest⟩ = f ++ InStream.flatten ⟨rest⟩ := by
          simp [InStream.flatten]
        rw [hflat] at hn
        simp at hn
        have hle : f.length ≤ n := by omega
        have hrec : InStream.recv ⟨f :: rest⟩ n = (f, ⟨rest⟩) := by
          simp [InStream.recv, hle]
        have hfpos : 0 < f.length := List.length_pos.mpr hf
        have hlt : n - f.length < n := Nat.sub_lt (Nat.pos_of_ne_zero h0) hfpos
        have hshort : (InStream.flatten ⟨rest⟩).length < n - f.length := by
          omega
        have htail := ih (n - f.length) hlt ⟨rest⟩ hshort
        rw [recv_exact, dif_neg h0]
        simp only [hrec, dif_neg hf]
        cases hq : recv_exact ⟨rest⟩ (n - f.length) with
        | mk r s2 =>
          rw [hq] at htail
          simp at htail
          simp [hq, htail, Except.map]

theorem unpack_pack_u32 (n : Nat) (h : n < 2 ^ 32) : unpack_be (pack_u32 n) = n := by
  simp [pack_u32, unpack_be, List.foldl]
  omega

theorem unpack_pack_u64 (n : Nat) (h : n < 2 ^ 64) : unpack_be (pack_u64 n) = n := by
  simp [pack_u64, unpack_be, List.foldl]
  omega

theorem pack_u32_length (n : Nat) : (pack_u32 n).length = 4 := rfl

theorem pack_u64_length (n : Nat) : (pack_u64 n).length = 8 := rfl

/-- Successful `recv_message`: if the stream carries a well-formed envelope
for payload `p` (any fragmentation), the payload is returned intact and
exactly the bytes of the envelope are consumed. -/
theorem recv_message_spec (s : InStream) (p rest : List Nat)
    (hne : ∀ f ∈ s.frags, f ≠ []) (hp : p.length ≤ 1024 * 1024 * 100)
    (hfl : s.flatten = pack_u32 p.length ++ p ++ rest) :
    ∃ s1, recv_message s = (some p, s1) ∧ s1.flatten = rest ∧
      ∀ f ∈ s1.frags, f ≠ [] := by
  have hlen : 4 ≤ s.flatten.length := by
    rw [hfl]
    simp [pack_u32_length]
  obtain ⟨s1, he1, hfl1, hne1⟩ := recv_exact_ok 4 s hne hlen
  have htake : s.flatten.take 4 = pack_u32 p.length := by
    rw [hfl, List.append_assoc, List.take_left' (pack_u32_length p.length)]
  have hdrop : s1.flatten = p ++ rest := by
    rw [hfl1, hfl, List.append_assoc, List.drop_left' (pack_u32_length p.length)]
  have hup : unpack_be (pack_u32 p.length) = p.length :=
    unpack_pack_u32 p.length (by omega)
  have hlen2 : p.length ≤ s1.flatten.length := by
    rw [hdrop]
    simp
  obtain ⟨s2, he2, hfl2, hne2⟩ := recv_exact_ok p.length s1 hne1 hlen2
  have htake2 : s1.flatten.take p.length = p := by
    rw [hdrop, List.take_left]
  have hdrop2 : s2.flatten = rest := by
    rw [hfl2, hdrop, List.drop_left]
  refine ⟨s2, ?_, hdrop2, hne2⟩
  rw [recv_message, recv_message_try]
  rw [htake] at he1
  simp only [he1, hup, htake2 ▸ he2]
  rw [if_neg (by omega)]

/-- C1: for every byte payload `p` with `0 ≤ len(p) ≤ 104857600`, sending
`p` with `send_message` and then receiving the resulting wire bytes with
`recv_message` over the same stream reconstructs `p` exactly. -/
theorem roundtrip_send_recv (p : List Nat) (hp : p.length ≤ 104857600) :
    ∃ o : OutSock, send_message ⟨[], false⟩ (PyData.bytes p) = (true, o) ∧
      (recv_message ⟨[o.wire]⟩).1 = some p := by
  have hlen : p.length < 4294967296 := by omega
  have hsend : send_message ⟨[], false⟩ (PyData.bytes p) =
      (true, ⟨pack_u32 p.length ++ p, false⟩) := by
    rw [send_message, send_message_try]
    simp [encodePayload, hlen, sendall]
  refine ⟨⟨pack_u32 p.length ++ p, false⟩, hsend, ?_⟩
  have hne : ∀ f ∈ (⟨[pack_u32 p.length ++ p]⟩ : InStream).frags, f ≠ [] := by
    intro f hf
    simp at hf
    subst hf
    simp [pack_u32]
  have hfl : (⟨[pack_u32 p.length ++ p]⟩ : InStream).flatten =
      pack_u32 p.length ++ p ++ [] := by
    simp [InStream.flatten]
  obtain ⟨s1, hrm, _, _⟩ := recv_message_spec _ p [] hne (by omega) hfl
  rw [hrm]

/-- C1 witness at `p = [1, 2, 3]`. -/
theorem roundtrip_send_recv_witness :
    ∃ o : OutSock, send_message ⟨[], false⟩ (PyData.bytes [1, 2, 3]) = (true, o) ∧
      (recv_message ⟨[o.wire]⟩).1 = some [1, 2, 3] :=
  roundtrip_send_recv [1, 2, 3] (by decide)

/-- C2: under every fragmentation of the stream into non-empty chunks,
`recv_exact s n` returns exactly the first `n` bytes of the stream in
order; if the stream ends before `n` bytes accumulate it fails with
`ConnectionClosed`; and a successful result never has fewer than `n`
bytes. -/
theorem recv_exact_reads_first_n (s : InStream) (n : Nat) :
    ((∀ f ∈ s.frags, f ≠ []) → n ≤ s.flatten.length →
      ∃ s1, recv_exact s n = (Except.ok (s.flatten.take n), s1) ∧
        s1.flatten = s.flatten.drop n) ∧
    (s.flatten.length < n →
      (recv_exact s n).1 = Except.error NetError.connectionClosed) ∧
    (∀ d s1, recv_exact s n = (Except.ok d, s1) → d.length = n) := by
  refine ⟨?_, recv_exact_short n s, fun d s1 h => recv_exact_ok_length n s d s1 h⟩
  intro hne hn
  obtain ⟨s1, he, hfl, _⟩ := recv_exact_ok n s hne hn
  exact ⟨s1, he, hfl⟩

/-- C2 witness: three 1-byte fragments, reading 2 bytes; and a 2-byte
stream failing a 4-byte read. -/
theorem recv_exact_reads_first_n_witness :
    (∃ s1, recv_exact ⟨[[1], [2], [3]]⟩ 2 =
        (Except.ok ((InStream.flatten ⟨[[1], [2], [3]]⟩).take 2), s1) ∧
      s1.flatten = (InStream.flatten ⟨[[1], [2], [3]]⟩).drop 2) ∧
    (recv_exact ⟨[[1], [2]]⟩ 4).1 = Except.error NetError.connectionClosed :=
  ⟨(recv_exact_reads_first_n ⟨[[1], [2], [3]]⟩ 2).1 (by decide) (by decide),
   (recv_exact_reads_first_n ⟨[[1], [2]]⟩ 4).2.1 (by decide)⟩

/-- C3: `recv_message` accepts every declared header length up to
104857600 (returning the declared number of payload bytes), and fails with
`MessageTooLarge` for every declared length strictly greater, consuming
only the 4 header bytes and zero payload bytes. -/
theorem recv_message_ceiling_enforcement (s : InStream) (L : Nat) (body : List Nat)
    (hne : ∀ f ∈ s.frags, f ≠ []) (hL : L < 2 ^ 32)
    (hfl : s.flatten = pack_u32 L ++ body) :
    (L ≤ 104857600 → L ≤ body.length → (recv_message s).1 = some (body.take L)) ∧
    (104857600 < L →
      ∃ s1, recv_message_try s = (Except.error NetError.messageTooLarge, s1) ∧
        recv_message s = (none, s1) ∧ s1.flatten = body) := by
  constructor
  · intro hceil hlen
    have hplen : (body.take L).length = L := by
      simp [List.length_take]
      omega
    have hfl2 : s.flatten = pack_u32 (body.take L).length ++ body.take L ++
        body.drop L := by
      rw [hplen, hfl, List.append_assoc, List.take_append_drop]
    obtain ⟨s1, hrm, _, _⟩ := recv_message_spec s (body.take L) (body.drop L)
      hne (by omega) hfl2
    rw [hrm]
  · intro hgt
    have hlen4 : 4 ≤ s.flatten.length := by
      rw [hfl]
      simp [pack_u32]
    obtain ⟨s1, he1, hfl1, hne1⟩ := recv_exact_ok 4 s hne hlen4
    have htake : s.flatten.take 4 = pack_u32 L := by
      rw [hfl, List.take_left' (pack_u32_length L)]
    have hdrop : s1.flatten = body := by
      rw [hfl1, hfl, List.drop_left' (pack_u32_length L)]
    have hup := unpack_pack_u32 L hL
    rw [htake] at he1
    have htry : recv_message_try s = (Except.error NetError.messageTooLarge, s1) := by
      rw [recv_message_try]
      simp only [he1, hup]
      rw [if_pos (by omega)]
    refine ⟨s1, htry, ?_, hdrop⟩
    rw [recv_message, htry]

/-- C3 witness: declared length 2 with payload `[7, 8]` is accepted;
declared length 104857601 = ceiling + 1 is rejected having read only the
header. -/
theorem recv_message_ceiling_enforcement_witness :
    (recv_message ⟨[[0, 0, 0, 2, 7, 8]]⟩).1 = some ([7, 8].take 2) ∧
    (∃ s1, recv_message_try ⟨[[6, 64, 0, 1], [9]]⟩ =
        (Except.error NetError.messageTooLarge, s1) ∧
      recv_message ⟨[[6, 64, 0, 1], [9]]⟩ = (none, s1) ∧ s1.flatten = [9]) :=
  ⟨(recv_message_ceiling_enforcement ⟨[[0, 0, 0, 2, 7, 8]]⟩ 2 [7, 8]
      (by decide) (by decide) (by decide)).1 (by decide) (by decide),
   (recv_message_ceiling_enforcement ⟨[[6, 64, 0, 1], [9]]⟩ 104857601 [9]
      (by decide) (by decide) (by decide)).2 (by decide)⟩

/-- C4: if the stream holds fewer than the 4 header bytes (e.g. the peer
closed after 2), the header read fails with `ConnectionClosed`, which
`recv_message` surfaces as `None`; no short header is ever interpreted as
a length. -/
theorem recv_message_short_header (s : InStream) (h : s.flatten.length < 4) :
    (recv_message_try s).1 = Except.error NetError.connectionClosed ∧
    (recv_message s).1 = none := by
  have hshort := recv_exact_short 4 s h
  cases hq : recv_exact s 4 with
  | mk r s1 =>
    rw [hq] at hshort
    simp at hshort
    subst hshort
    constructor
    · rw [recv_message_try, hq]
    · rw [recv_message, recv_message_try, hq]

/-- C4 witness: stream closed after delivering only 2 of the 4 header
bytes. -/
theorem recv_message_short_header_witness :
    (recv_message_try ⟨[[0, 1]]⟩).1 = Except.error NetError.connectionClosed ∧
    (recv_message ⟨[[0, 1]]⟩).1 = none :=
  recv_message_short_header ⟨[[0, 1]]⟩ (by decide)

/-- C5: `send_message` and `recv_message` convert every internal failure
of their `try` bodies into a sentinel outcome: `send_message` returns
`False` exactly when its body raised, `True` exactly when it succeeded,
and `recv_message` returns `None` exactly when its body raised and the
payload bytes exactly when it succeeded — failures never propagate to the
caller. -/
theorem channel_sentinel_outcomes :
    ∀ (o : OutSock) (m : PyData) (s : InStream),
      ((send_message o m).1 = true ↔ (send_message_try o m).isOk = true) ∧
      ((send_message o m).1 = false ↔ (send_message_try o m).isOk = false) ∧
      ((recv_message s).1 = none ↔ ∃ e, (recv_message_try s).1 = Except.error e) ∧
      (∀ d, (recv_message s).1 = some d ↔ (recv_message_try s).1 = Except.ok d) := by
  intro o m s
  refine ⟨?_, ?_, ?_, ?_⟩
  · rw [send_message]
    cases send_message_try o m <;> simp [Except.isOk, Except.toBool]
  · rw [send_message]
    cases send_message_try o m <;> simp [Except.isOk, Except.toBool]
  · rw [recv_message]
    cases hq : recv_message_try s with
    | mk r s1 => cases r <;> simp
  · intro d
    rw [recv_message]
    cases hq : recv_message_try s with
    | mk r s1 => cases r <;> simp

theorem splitPlus_ne_nil (l : List Nat) : splitPlus l ≠ [] := by
  cases l with
  | nil => simp [splitPlus]
  | cons c rest =>
    rw [splitPlus]
    by_cases h : c = 43
    · simp [h]
    · rw [if_neg h]
      cases splitPlus rest <;> simp

theorem splitPlus_length (l : List Nat) :
    (splitPlus l).length = l.count 43 + 1 := by
  induction l with
  | nil => simp [splitPlus]
  | cons c rest ih =>
    rw [splitPlus]
    by_cases h : c = 43
    · simp [h, ih, List.count_cons]
    · rw [if_neg h]
      cases hq : splitPlus rest with
      | nil => exact absurd hq (splitPlus_ne_nil rest)
      | cons p ps =>
        rw [hq] at ih
        simp at ih ⊢
        simp [List.count_cons, h]
        omega

theorem largeMessage_length : largeMessage.length = 30000 := by
  rw [largeMessage, List.length_flatten, List.map_replicate]
  rw [show baseMsg.length = 30 from rfl, List.sum_replicate]
  norm_num

theorem recv_file_loop_ok :
    ∀ (r : Nat) (s : InStream), (∀ f ∈ s.frags, f ≠ []) → r ≤ s.flatten.length →
      ∃ s1, recv_file_loop s r = (Except.ok (s.flatten.take r), s1) ∧
        s1.flatten = s.flatten.drop r ∧ ∀ f ∈ s1.frags, f ≠ [] := by
  intro r
  induction r using Nat.strong_induction_on with
  | _ r ih =>
    intro s hne hr
    by_cases h0 : r = 0
    · subst h0
      refine ⟨s, ?_, by simp, hne⟩
      rw [recv_file_loop]
      simp
    · have hk1 : 0 < min 65536 r := lt_min (by omega) (Nat.pos_of_ne_zero h0)
      have hkr : min 65536 r ≤ r := Nat.min_le_right 65536 r
      obtain ⟨s1, he1, hfl1, hne1⟩ := recv_exact_ok (min 65536 r) s hne (by omega)
      have hlt : r - min 65536 r < r := by omega
      have hr2 : r - min 65536 r ≤ s1.flatten.length := by
        rw [hfl1]
        simp [List.length_drop]
        omega
      obtain ⟨s2, he2, hfl2, hne2⟩ := ih (r - min 65536 r) hlt s1 hne1 hr2
      refine ⟨s2, ?_, ?_, hne2⟩
      · rw [recv_file_loop, dif_neg h0]
        simp only [he1, he2, hfl1, Except.map]
        have : s.flatten.take (min 65536 r) ++ (s.flatten.drop (min 65536 r)).take
            (r - min 65536 r) = s.flatten.take r := by
          rw [← List.take_add]
          congr 1
          omega
        rw [this]
      · rw [hfl2, hfl1, List.drop_drop]
        congr 1
        omega

/-- Successful `recv_file`: a well-formed name envelope, 8-byte size field
and content of exactly that size (any fragmentation) produce a `True`
result, the file at `full_save_path` with exactly the sent content, and
consume exactly those bytes. -/
theorem recv_file_ok (s : InStream) (fn name size_bytes content rest save : List Nat)
    (hne : ∀ f ∈ s.frags, f ≠ [])
    (hfl : s.flatten = pack_u32 fn.length ++ fn ++ size_bytes ++ content ++ rest)
    (hfn : fn ≠ []) (hlen : fn.length ≤ 1024 * 1024 * 100)
    (hdec : utf8Decode fn = some name)
    (hsz : size_bytes.length = 8) (hz : unpack_be size_bytes = content.length) :
    ∃ s1, recv_file s save = (true, s1, some (full_save_path save name, content)) ∧
      s1.flatten = rest := by
  have hfl' : s.flatten = pack_u32 fn.length ++ fn ++ (size_bytes ++ content ++ rest) := by
    rw [hfl]
    simp [List.append_assoc]
  obtain ⟨s1, hrm, hfl1, hne1⟩ := recv_message_spec s fn (size_bytes ++ content ++ rest)
    hne hlen hfl'
  obtain ⟨s2, he2, hfl2, hne2⟩ := recv_exact_ok 8 s1 hne1
    (by rw [hfl1]; simp [hsz])
  have htake8 : s1.flatten.take 8 = size_bytes := by
    rw [hfl1, List.append_assoc, List.take_left' hsz]
  have hdrop8 : s2.flatten = content ++ rest := by
    rw [hfl2, hfl1, List.append_assoc, List.drop_left' hsz]
  rw [htake8] at he2
  obtain ⟨s3, he3, hfl3, _⟩ := recv_file_loop_ok content.length s2 hne2
    (by rw [hdrop8]; simp)
  have htakeC : s2.flatten.take content.length = content := by
    rw [hdrop8, List.take_left]
  have hdropC : s3.flatten = rest := by
    rw [hfl3, hdrop8, List.drop_left]
  rw [htakeC] at he3
  refine ⟨s3, ?_, hdropC⟩
  simp only [recv_file, hrm, hfn, hdec, he2, hz, he3]
  simp

/-- C6: identity parsing in the listener succeeds exactly when the received
string splits into exactly three `+`-delimited fields, in which case the
large test payload is sent; for any other field count the listener sends a
single envelope whose text starts with `"ERROR:"`, aborts, and never sends
the large payload. -/
theorem listener_identity_parse (resp : List Nat) :
    ((splitPlus resp).length = 3 →
      listener_handle_identity resp = ([largeMessage], false)) ∧
    ((splitPlus resp).length ≠ 3 →
      ∃ e, listener_handle_identity resp = ([e], true) ∧
        e.take 6 = errorTag ∧ e ≠ largeMessage) := by
  constructor
  · intro h3
    have hmem : 43 ∈ resp := by
      by_contra hnm
      have hsl := splitPlus_length resp
      rw [List.count_eq_zero.mpr hnm] at hsl
      omega
    rw [listener_handle_identity, if_pos hmem, if_pos h3]
  · intro h3
    by_cases hmem : 43 ∈ resp
    · refine ⟨errInvalidFormat, ?_, by decide, ?_⟩
      · rw [listener_handle_identity, if_pos hmem, if_neg h3]
      · intro hEq
        have h1 : errInvalidFormat.length = 21 := by decide
        rw [hEq, largeMessage_length] at h1
        omega
    · refine ⟨errMissingSeparator, ?_, by decide, ?_⟩
      · rw [listener_handle_identity, if_neg hmem]
      · intro hEq
        have h1 : errMissingSeparator.length = 24 := by decide
        rw [hEq, largeMessage_length] at h1
        omega

/-- C6 witness: `"9001+hostA+10.0.0.5"` parses and triggers the large
payload; `"9001+hostA"` (two fields) and `"9001-hostA-10.0.0.5"` (no
separator) both abort with an `"ERROR:"` envelope. -/
theorem listener_identity_parse_witness :
    listener_handle_identity
        [57, 48, 48, 49, 43, 104, 111, 115, 116, 65, 43, 49, 48, 46, 48, 46,
         48, 46, 53] = ([largeMessage], false) ∧
    (∃ e, listener_handle_identity [57, 48, 48, 49, 43, 104, 111, 115, 116, 65] =
        ([e], true) ∧ e.take 6 = errorTag ∧ e ≠ largeMessage) ∧
    (∃ e, listener_handle_identity
        [57, 48, 48, 49, 45, 104, 111, 115, 116, 65, 45, 49, 48, 46, 48, 46,
         48, 46, 53] = ([e], true) ∧ e.take 6 = errorTag ∧ e ≠ largeMessage) :=
  ⟨(listener_identity_parse _).1 (by decide),
   (listener_identity_parse _).2 (by decide),
   (listener_identity_parse _).2 (by decide)⟩

/-- C7 counterexample: on a filesystem where the path `"/tmp"` (no
trailing separator) denotes a directory, the rule stated in the spec joins
the file name onto it, but the path computation in `recv_file` uses it
verbatim — the "denotes a directory" test of the claim is not what the
code checks. -/
theorem full_save_path_ignores_directory_predicate :
    (fun p => p == ([47, 116, 109, 112] : List Nat)) [47, 116, 109, 112] = true ∧
    full_save_path [47, 116, 109, 112] [102, 46, 116, 120, 116] ≠
      spec_full_save_path (fun p => p == [47, 116, 109, 112])
        [47, 116, 109, 112] [102, 46, 116, 120, 116] := by
  decide

/-- C7 (amended): `recv_file` writes to the destination joined with the
received file name whenever the destination ends with a path separator
(`"/"` or `"\\"`), and writes to the destination path verbatim otherwise —
whether the destination actually denotes a directory is never consulted. -/
theorem recv_file_destination_rule (s : InStream)
    (fn name size_bytes content rest save : List Nat)
    (hne : ∀ f ∈ s.frags, f ≠ [])
    (hfl : s.flatten = pack_u32 fn.length ++ fn ++ size_bytes ++ content ++ rest)
    (hfn : fn ≠ []) (hlen : fn.length ≤ 104857600)
    (hdec : utf8Decode fn = some name)
    (hsz : size_bytes.length = 8) (hz : unpack_be size_bytes = content.length) :
    ∃ s1,
      recv_file s save =
        (true, s1,
          some (if endsWithSep save then pathJoin save name else save, content)) := by
  obtain ⟨s1, hrf, _⟩ := recv_file_ok s fn name size_bytes content rest save
    hne hfl hfn (by omega) hdec hsz hz
  exact ⟨s1, by rw [hrf, full_save_path]⟩

/-- C7 witness: the same transfer delivered once to `"/d/"` (trailing
separator: joined) and once to `"/d"` (no separator: verbatim). -/
theorem recv_file_destination_rule_witness :
    (∃ s1, recv_file ⟨[[0, 0, 0, 1, 102, 0, 0, 0, 0, 0, 0, 0, 1, 9]]⟩ [47, 100, 47] =
      (true, s1,
        some (if endsWithSep [47, 100, 47] then pathJoin [47, 100, 47] [102]
          else [47, 100, 47], [9]))) ∧
    (∃ s1, recv_file ⟨[[0, 0, 0, 1, 102, 0, 0, 0, 0, 0, 0, 0, 1, 9]]⟩ [47, 100] =
      (true, s1,
        some (if endsWithSep [47, 100] then pathJoin [47, 100] [102]
          else [47, 100], [9]))) :=
  ⟨recv_file_destination_rule _ [102] [102] [0, 0, 0, 0, 0, 0, 0, 1] [9] [] _
      (by decide) (by decide) (by decide) (by decide) (by decide) (by decide)
      (by decide),
   recv_file_destination_rule _ [102] [102] [0, 0, 0, 0, 0, 0, 0, 1] [9] [] _
      (by decide) (by decide) (by decide) (by decide) (by decide) (by decide)
      (by decide)⟩

/-- C8 counterexample: the channel is not agnostic of the payload type —
`send_message` applied to the one-character text `"é"` (code point 233)
itself performs the UTF-8 encoding, placing the two encoded bytes on the
wire; the encoding did not happen at the call site. -/
theorem send_message_encodes_text_internally :
    send_message ⟨[], false⟩ (PyData.str [233]) =
      (true, ⟨[0, 0, 0, 2, 195, 169], false⟩) ∧
    utf8Encode [233] = some [195, 169] := by
  decide

/-- C8 (amended): the channel transmits `bytes` payloads unchanged (the
wire carries the header followed by exactly the payload bytes), and
`recv_message` returns raw bytes, so decoding falls to the call site; but
`send_message` also accepts text and applies the UTF-8 encoding itself —
when the text encodes, sending it is the same as sending its UTF-8
encoding as `bytes`, and when encoding raises (a lone surrogate) the
failure too happens inside the channel: `send_message` returns `False`
with nothing written. -/
theorem channel_binary_clean_on_bytes (o : OutSock) (p cps : List Nat)
    (hb : o.broken = false) (hl : p.length < 4294967296) :
    send_message o (PyData.bytes p) =
      (true, ⟨o.wire ++ pack_u32 p.length ++ p, false⟩) ∧
    (∀ bs, utf8Encode cps = some bs →
      send_message o (PyData.str cps) = send_message o (PyData.bytes bs)) ∧
    (utf8Encode cps = none → send_message o (PyData.str cps) = (false, o)) := by
  refine ⟨?_, ?_, ?_⟩
  · rw [send_message, send_message_try]
    simp [encodePayload, sendall, hb, hl, List.append_assoc]
  · intro bs hbs
    rw [send_message, send_message, send_message_try, send_message_try]
    simp [encodePayload, hbs]
  · intro hnone
    rw [send_message, send_message_try]
    simp [encodePayload, hnone]

/-- C8 witness: bytes `[0, 255]` pass through unchanged; the text `[233]`
is sent as its encoding `[195, 169]`; the lone surrogate `[55296]` makes
the internal encode fail and `send_message` return `False`. -/
theorem channel_binary_clean_on_bytes_witness :
    send_message ⟨[], false⟩ (PyData.bytes [0, 255]) =
      (true, ⟨[] ++ pack_u32 [0, 255].length ++ [0, 255], false⟩) ∧
    send_message ⟨[], false⟩ (PyData.str [233]) =
      send_message ⟨[], false⟩ (PyData.bytes [195, 169]) ∧
    send_message ⟨[], false⟩ (PyData.str [55296]) = (false, ⟨[], false⟩) :=
  ⟨(channel_binary_clean_on_bytes ⟨[], false⟩ [0, 255] [233] rfl (by decide)).1,
   (channel_binary_clean_on_bytes ⟨[], false⟩ [0, 255] [233] rfl (by decide)).2.1
      [195, 169] (by decide),
   (channel_binary_clean_on_bytes ⟨[], false⟩ [0, 255] [55296] rfl (by decide)).2.2
      (by decide)⟩

/-- C9: when the 8-byte size field decodes to 0, `recv_file` succeeds,
records the destination file with empty content, and performs zero content
reads — the stream is left exactly at the byte after the size field. -/
theorem recv_file_zero_size (s : InStream) (fn name size_bytes rest save : List Nat)
    (hne : ∀ f ∈ s.frags, f ≠ [])
    (hfl : s.flatten = pack_u32 fn.length ++ fn ++ size_bytes ++ rest)
    (hfn : fn ≠ []) (hlen : fn.length ≤ 104857600)
    (hdec : utf8Decode fn = some name)
    (hsz : size_bytes.length = 8) (hz : unpack_be size_bytes = 0) :
    ∃ s1, recv_file s save = (true, s1, some (full_save_path save name, [])) ∧
      s1.flatten = rest := by
  refine recv_file_ok s fn name size_bytes [] rest save hne ?_ hfn (by omega)
    hdec hsz (by simpa using hz)
  rw [hfl]
  simp

/-- C9 witness: name `"f"`, size field `00 00 00 00 00 00 00 00`, one
trailing byte left untouched on the stream. -/
theorem recv_file_zero_size_witness :
    ∃ s1, recv_file ⟨[[0, 0, 0, 1], [102], [0, 0, 0, 0, 0, 0, 0, 0], [7]]⟩ [47, 100] =
      (true, s1, some (full_save_path [47, 100] [102], [])) ∧
      s1.flatten = [7] :=
  recv_file_zero_size _ [102] [102] [0, 0, 0, 0, 0, 0, 0, 0] [7] [47, 100]
    (by decide) (by decide) (by decide) (by decide) (by decide) (by decide)
    (by decide)

/-- C10: `send_message` performs no ceiling validation: any payload whose
length fits the 4-byte header (including lengths far above the 104857600
receive ceiling) is sent and `True` returned when the underlying writes
succeed, while a payload of 2^32 bytes or more makes the header packing
fail, so `send_message` returns `False`. -/
theorem send_message_no_ceiling (o : OutSock) (p : List Nat) (hb : o.broken = false) :
    (p.length < 4294967296 →
      send_message o (PyData.bytes p) =
        (true, ⟨o.wire ++ pack_u32 p.length ++ p, false⟩)) ∧
    (4294967296 ≤ p.length → send_message o (PyData.bytes p) = (false, o)) := by
  constructor
  · intro h
    rw [send_message, send_message_try]
    simp [encodePayload, sendall, hb, h, List.append_assoc]
  · intro h
    rw [send_message, send_message_try]
    simp only [encodePayload]
    rw [if_neg (by omega)]

/-- C10 witness: a payload one byte above the ceiling is still sent with
`True`; a payload of exactly 2^32 zero bytes yields `False`. -/
theorem send_message_no_ceiling_witness :
    send_message ⟨[], false⟩ (PyData.bytes (List.replicate 104857601 0)) =
      (true, ⟨[] ++ pack_u32 (List.replicate 104857601 0).length ++
        List.replicate 104857601 0, false⟩) ∧
    send_message ⟨[], false⟩ (PyData.bytes (List.replicate 4294967296 0)) =
      (false, ⟨[], false⟩) :=
  ⟨(send_message_no_ceiling ⟨[], false⟩ (List.replicate 104857601 0) rfl).1
      (by rw [List.length_replicate]; norm_num),
   (send_message_no_ceiling ⟨[], false⟩ (List.replicate 4294967296 0) rfl).2
      (by rw [List.length_replicate])⟩
